import Mathlib

/-!
Shallow embedding of the `reltester` crate: granular invariant checkers for
equality, ordering, hashing and iteration (`src/invariants.rs`, `src/error.rs`)
and the older inline checker module plus composite verifiers (`src/lib.rs`).

Trait implementations under test are modelled as records of explicit method
functions (`eq`, `ne`, `lt`, ..., `partial_cmp`, `cmp`, `max`, `min`, `clamp`,
hashing as the list of byte-slices written to the hasher, iterators as method
result fields or step functions), since the checkers exist precisely to test
implementations whose methods may disagree with one another.
-/

namespace Reltester

/-- A `PartialEq<B>` implementation on `A`: the `eq` and `ne` methods. -/
structure PartialEqOps (α β : Type) where
  eq : α → β → Bool
  ne : α → β → Bool

/-- A `PartialOrd<B>` implementation on `A`: comparison operators and
`partial_cmp`, together with the underlying `PartialEq` methods. -/
structure PartialOrdOps (α β : Type) extends PartialEqOps α β where
  lt : α → β → Bool
  le : α → β → Bool
  gt : α → β → Bool
  ge : α → β → Bool
  partial_cmp : α → β → Option Ordering

/-- An `Ord` implementation on `T`: `cmp`, `max`, `min`, `clamp` together with
the underlying `PartialOrd`/`PartialEq` methods. -/
structure OrdOps (α : Type) extends PartialOrdOps α α where
  cmp : α → α → Ordering
  max : α → α → α
  min : α → α → α
  clamp : α → α → α → α

/-- `std::cmp::max_by`: returns the greater of two values with respect to a
comparison function, the second one on ties. -/
def max_by (v1 v2 : α) (compare : α → α → Ordering) : α :=
  match compare v1 v2 with
  | .lt => v2
  | .eq => v2
  | .gt => v1

/-- `std::cmp::min_by`: returns the smaller of two values with respect to a
comparison function, the first one on ties. -/
def min_by (v1 v2 : α) (compare : α → α → Ordering) : α :=
  match compare v1 v2 with
  | .lt => v1
  | .eq => v1
  | .gt => v2

/-! ## Error taxonomy of `src/error.rs` -/

/-- `PartialEqError` from `src/error.rs`. -/
inductive PartialEqError
  | BadNe
  | BrokeSymmetry
  | BrokeTransitivity
  deriving DecidableEq, Repr

/-- `EqError` from `src/error.rs`. -/
inductive EqError
  | BrokeReflexivity
  deriving DecidableEq, Repr

/-- `PartialOrdError` from `src/error.rs`. -/
inductive PartialOrdError
  | BadPartialCmp
  | BadLt
  | BadLe
  | BadGt
  | BadGe
  | BrokeDuality
  | BrokeTransitivity
  deriving DecidableEq, Repr

/-- `OrdError` from `src/error.rs`. -/
inductive OrdError
  | BadCmp
  | BadMax
  | BadMin
  | BadClamp
  deriving DecidableEq, Repr

/-- `HashError` from `src/error.rs`. -/
inductive HashError
  | EqualButDifferentHashes
  | PrefixCollision
  deriving DecidableEq, Repr

/-- `IteratorError` from `src/error.rs`. -/
inductive IteratorError
  | BadSizeHint
  | BadCount
  | BadLast
  | BadNextBack
  | FusedIteratorReturnedSomeAfterExhaustion
  deriving DecidableEq, Repr

/-! ## The standalone checkers of `src/invariants.rs` -/

namespace Invariants

/-- `invariants::partial_eq_methods_consistency`: `eq` and `ne` must be strict
inverses. -/
def partial_eq_methods_consistency (ops : PartialEqOps α β) (a : α) (b : β) :
    Except PartialEqError Unit :=
  if ops.eq a b ≠ !ops.ne a b then .error .BadNe
  else .ok ()

/-- `invariants::partial_eq_symmetry`: `a == b` must agree with `b == a`. -/
def partial_eq_symmetry (opsAB : PartialEqOps α β) (opsBA : PartialEqOps β α)
    (a : α) (b : β) : Except PartialEqError Unit :=
  if opsAB.eq a b ≠ opsBA.eq b a then .error .BrokeSymmetry
  else .ok ()

/-- `invariants::partial_eq_transitivity`: `a == b && b == c && a != c` is a
violation. -/
def partial_eq_transitivity (opsAB : PartialEqOps α β) (opsBC : PartialEqOps β γ)
    (opsAC : PartialEqOps α γ) (a : α) (b : β) (c : γ) :
    Except PartialEqError Unit :=
  if opsAB.eq a b && opsBC.eq b c && opsAC.ne a c then .error .BrokeTransitivity
  else .ok ()

/-- `invariants::eq_reflexivity`: fails when `a != a`; note that the source
returns the `BrokeTransitivity` kind of `PartialEqError` here, not
`EqError::BrokeReflexivity`. -/
def eq_reflexivity (ops : PartialEqOps α α) (a : α) : Except PartialEqError Unit :=
  if ops.ne a a then .error .BrokeTransitivity
  else .ok ()

/-- `invariants::partial_ord_methods_consistency`: the comparison operators must
agree with `partial_cmp`. -/
def partial_ord_methods_consistency (ops : PartialOrdOps α β) (a : α) (b : β) :
    Except PartialOrdError Unit :=
  if ops.eq a b ≠ decide (ops.partial_cmp a b = some .eq) then .error .BadPartialCmp
  else if ops.lt a b ≠ decide (ops.partial_cmp a b = some .lt) then .error .BadLt
  else if ops.gt a b ≠ decide (ops.partial_cmp a b = some .gt) then .error .BadGt
  else if ops.le a b ≠ (ops.lt a b || ops.eq a b) then .error .BadLe
  else if ops.ge a b ≠ (ops.gt a b || ops.eq a b) then .error .BadGe
  else .ok ()

/-- `invariants::partial_ord_duality`: the source reports `BrokeDuality` only
when `(a < b) != (b > a)` *and* `(a > b) != (b < a)` hold simultaneously. -/
def partial_ord_duality (opsAB : PartialOrdOps α β) (opsBA : PartialOrdOps β α)
    (a : α) (b : β) : Except PartialOrdError Unit :=
  if (opsAB.lt a b ≠ opsBA.gt b a) ∧ (opsAB.gt a b ≠ opsBA.lt b a) then
    .error .BrokeDuality
  else .ok ()

/-- `invariants::partial_ord_transitivity`: transitivity of `<` and of `>`. -/
def partial_ord_transitivity (opsAB : PartialOrdOps α β) (opsBC : PartialOrdOps β γ)
    (opsAC : PartialOrdOps α γ) (a : α) (b : β) (c : γ) :
    Except PartialOrdError Unit :=
  if opsAB.lt a b && opsBC.lt b c && !opsAC.lt a c then .error .BrokeTransitivity
  else if opsAB.gt a b && opsBC.gt b c && !opsAC.gt a c then .error .BrokeTransitivity
  else .ok ()

/-- `invariants::ord_methods_consistency`: `partial_cmp` must agree with `cmp`,
`max`/`min` with `max_by`/`min_by` under `cmp`, and `clamp a (min b c) (max b c)`
must lie inside the interval. -/
def ord_methods_consistency (ops : OrdOps α) (a b c : α) : Except OrdError Unit :=
  if ops.partial_cmp a b ≠ some (ops.cmp a b) then .error .BadCmp
  else if ops.ne (ops.max a b) (max_by a b ops.cmp) then .error .BadMax
  else if ops.ne (ops.min a b) (min_by a b ops.cmp) then .error .BadMin
  else
    let mn := ops.min b c
    let mx := ops.max b c
    let clamped := ops.clamp a mn mx
    if ops.lt clamped mn || ops.gt clamped mx then .error .BadClamp
    else .ok ()

end Invariants

/-! ## The inline checker module and composite verifiers of `src/lib.rs` -/

namespace RelLib

/-- The umbrella `Error` enumeration of `src/lib.rs`. -/
inductive Error
  | NotConsistentEqNe
  | NotConsistentPartialCmpEq
  | NotConsistentPartialCmpLt
  | NotConsistentPartialCmpLe
  | NotConsistentPartialCmpGt
  | NotConsistentPartialCmpGe
  | NotConsistentCmpPartialCmp
  | NotConsistentCmpMax
  | NotConsistentCmpMin
  | NotConsistentCmpClamp
  | BrokeReflexivity
  | BrokeSymmetry
  | BrokeTransitivity
  | BrokeDuality
  deriving DecidableEq, Repr

/-- `lib.rs` `invariants::partial_eq_methods_consistency`. -/
def partial_eq_methods_consistency (ops : PartialEqOps α β) (a : α) (b : β) :
    Except Error Unit :=
  if ops.eq a b ≠ !ops.ne a b then .error .NotConsistentEqNe
  else .ok ()

/-- `lib.rs` `invariants::partial_eq_symmetry`. -/
def partial_eq_symmetry (opsAB : PartialEqOps α β) (opsBA : PartialEqOps β α)
    (a : α) (b : β) : Except Error Unit :=
  if opsAB.eq a b ≠ opsBA.eq b a then .error .BrokeSymmetry
  else .ok ()

/-- `lib.rs` `invariants::partial_eq_transitivity`. -/
def partial_eq_transitivity (opsAB : PartialEqOps α β) (opsBC : PartialEqOps β γ)
    (opsAC : PartialEqOps α γ) (a : α) (b : β) (c : γ) : Except Error Unit :=
  if opsAB.eq a b && opsBC.eq b c && opsAC.ne a c then .error .BrokeTransitivity
  else .ok ()

/-- `lib.rs` `invariants::eq_reflexivity`: fails with `Error::BrokeReflexivity`
when `a != a`. -/
def eq_reflexivity (ops : PartialEqOps α α) (a : α) : Except Error Unit :=
  if ops.ne a a then .error .BrokeReflexivity
  else .ok ()

/-- `lib.rs` `invariants::partial_ord_methods_consistency`: first checks
`partial_eq_methods_consistency`, then the operator / `partial_cmp`
consistency conditions. -/
def partial_ord_methods_consistency (ops : PartialOrdOps α β) (a : α) (b : β) :
    Except Error Unit := do
  partial_eq_methods_consistency ops.toPartialEqOps a b
  if ops.eq a b ≠ decide (ops.partial_cmp a b = some .eq) then
    .error .NotConsistentPartialCmpEq
  else if ops.lt a b ≠ decide (ops.partial_cmp a b = some .lt) then
    .error .NotConsistentPartialCmpLt
  else if ops.gt a b ≠ decide (ops.partial_cmp a b = some .gt) then
    .error .NotConsistentPartialCmpGt
  else if ops.le a b ≠ (ops.lt a b || ops.eq a b) then
    .error .NotConsistentPartialCmpLe
  else if ops.ge a b ≠ (ops.gt a b || ops.eq a b) then
    .error .NotConsistentPartialCmpGe
  else .ok ()

/-- `lib.rs` `invariants::partial_ord_duality`: same double-sided condition as
the standalone version. -/
def partial_ord_duality (opsAB : PartialOrdOps α β) (opsBA : PartialOrdOps β α)
    (a : α) (b : β) : Except Error Unit :=
  if (opsAB.lt a b ≠ opsBA.gt b a) ∧ (opsAB.gt a b ≠ opsBA.lt b a) then
    .error .BrokeDuality
  else .ok ()

/-- `lib.rs` `invariants::partial_ord_transitivity`: first checks
`partial_eq_transitivity`, then transitivity of `<` and `>`. -/
def partial_ord_transitivity (opsAB : PartialOrdOps α β) (opsBC : PartialOrdOps β γ)
    (opsAC : PartialOrdOps α γ) (a : α) (b : β) (c : γ) : Except Error Unit := do
  partial_eq_transitivity opsAB.toPartialEqOps opsBC.toPartialEqOps
    opsAC.toPartialEqOps a b c
  if opsAB.lt a b && opsBC.lt b c && !opsAC.lt a c then .error .BrokeTransitivity
  else if opsAB.gt a b && opsBC.gt b c && !opsAC.gt a c then .error .BrokeTransitivity
  else .ok ()

/-- `lib.rs` `invariants::ord_methods_consistency`: like the standalone version
but without the clamp check (left as a TODO in the source). -/
def ord_methods_consistency (ops : OrdOps α) (a b : α) (_c : α) : Except Error Unit :=
  if ops.partial_cmp a b ≠ some (ops.cmp a b) then .error .NotConsistentCmpPartialCmp
  else if ops.ne (ops.max a b) (max_by a b ops.cmp) then .error .NotConsistentCmpMax
  else if ops.ne (ops.min a b) (min_by a b ops.cmp) then .error .NotConsistentCmpMin
  else .ok ()

/-- `lib.rs` `partial_eq`: composite `PartialEq` verifier. -/
def partial_eq (ops : PartialEqOps α α) (a b c : α) : Except Error Unit := do
  partial_eq_methods_consistency ops a b
  partial_eq_symmetry ops ops a b
  partial_eq_transitivity ops ops ops a b c

/-- `lib.rs` `eq`: composite `Eq` verifier: `partial_eq` plus reflexivity. -/
def eq (ops : PartialEqOps α α) (a b c : α) : Except Error Unit := do
  partial_eq ops a b c
  eq_reflexivity ops a

/-- `lib.rs` `partial_ord`: composite `PartialOrd` verifier. -/
def partial_ord (ops : PartialOrdOps α α) (a b c : α) : Except Error Unit := do
  partial_eq ops.toPartialEqOps a b c
  partial_ord_methods_consistency ops a b
  partial_ord_duality ops ops a b
  partial_ord_transitivity ops ops ops a b c

/-- `lib.rs` `ord`: composite `Ord` verifier. -/
def ord (ops : OrdOps α) (a b c : α) : Except Error Unit := do
  eq ops.toPartialEqOps a b c
  partial_ord ops.toPartialOrdOps a b c
  ord_methods_consistency ops a b c

end RelLib

/-! ## Hashing model (`src/invariants.rs`: `hasher_output` and hash checkers) -/

/-- A `Hash + Eq` implementation: `eq`/`ne` plus the hashing behaviour, given
as the list of byte slices the value feeds to [`Hasher::write`], in call
order. Bytes are modelled as `Nat`. -/
structure HashOps (α : Type) extends PartialEqOps α α where
  hash_writes : α → List (List Nat)

/-- `invariants::hasher_output`: the `NoHasher` sink appends every written
slice to its buffer, so the recorded output is the concatenation of all
writes. -/
def hasher_output (ops : HashOps α) (item : α) : List Nat :=
  (ops.hash_writes item).flatten

namespace Invariants

/-- `invariants::hash_consistency_with_eq`: equality of recorded hasher
outputs must agree with `eq`. -/
def hash_consistency_with_eq (ops : HashOps α) (a b : α) : Except HashError Unit :=
  let hasher_output_equality := decide (hasher_output ops a = hasher_output ops b)
  let equality := ops.eq a b
  if hasher_output_equality ≠ equality then .error .EqualButDifferentHashes
  else .ok ()

/-- `invariants::hash_prefix_collision`: for values with `a != b`, neither
recorded output may start with the other. -/
def hash_prefix_collision (ops : HashOps α) (a b : α) : Except HashError Unit :=
  if ops.ne a b then
    let hasher_output_a := hasher_output ops a
    let hasher_output_b := hasher_output ops b
    if hasher_output_b.isPrefixOf hasher_output_a
        || hasher_output_a.isPrefixOf hasher_output_b then
      .error .PrefixCollision
    else .ok ()
  else .ok ()

end Invariants

/-! ## Iterator model (`src/invariants.rs` iterator checkers)

A cloneable iterator is modelled by the results its methods produce: `seq` is
the sequence of items successive `next` calls yield before the first `None`
(what `collect` materializes), while `size_hint`, `count` and `last` are the
possibly-overridden method results. `Clone` produces an identical, independent
duplicate, so both clones are described by the same record. `item_eq` is the
`PartialEq::eq` of the item type, used by the element comparisons. -/
structure IterOps (α : Type) where
  seq : List α
  size_hint : Nat × Option Nat
  count : Nat
  last : Option α
  item_eq : α → α → Bool

/-- Equality of `Option<&Item>` values as `std` derives it: both `None`, or
both `Some` with items equal under the item type's `eq`. -/
def optionEqBy (itemEq : α → α → Bool) : Option α → Option α → Bool
  | none, none => true
  | some x, some y => itemEq x y
  | _, _ => false

namespace Invariants

/-- `invariants::iterator_size_hint`: the stated lower bound must not exceed
`count`, and `count` must not exceed a stated upper bound. -/
def iterator_size_hint (iter : IterOps α) : Except IteratorError Unit :=
  let size_hint := iter.size_hint
  let count := iter.count
  if size_hint.1 > count then .error .BadSizeHint
  else
    match size_hint.2 with
    | some upper_bound => if upper_bound < count then .error .BadSizeHint else .ok ()
    | none => .ok ()

/-- `invariants::iterator_count`: `count` of one clone must equal the length
of the `Vec` collected from another clone. -/
def iterator_count (iter : IterOps α) : Except IteratorError Unit :=
  let count := iter.count
  let collected := iter.seq
  if count ≠ collected.length then .error .BadCount
  else .ok ()

/-- `invariants::iterator_last`: `last()` of one clone must equal the last
element of the collected `Vec` (compared as `Option<&Item>`). -/
def iterator_last (iter : IterOps α) : Except IteratorError Unit :=
  let last := iter.last
  let collected := iter.seq
  if !optionEqBy iter.item_eq last collected.getLast? then .error .BadLast
  else .ok ()

end Invariants

/-! ## Double-ended iterator model

`double_ended_iterator_next_back` drives an iterator with a random front/back
choice at each step. The iterator under test is a state machine (`next` and
`next_back` may be arbitrary, including mutually inconsistent); the random
stream is an explicit choice function (`true` = take from the front), and the
unbounded `loop` is run on explicit fuel: `none` models a run whose loops do
not finish within the fuel. -/
structure DEIterOps (σ α : Type) where
  next : σ → Option (α × σ)
  next_back : σ → Option (α × σ)
  item_eq : α → α → Bool

/-- Forward materialization (`iter.clone().collect::<Vec<_>>()`) of a
double-ended iterator machine, on fuel. -/
def collectF (it : DEIterOps σ α) : Nat → σ → Option (List α)
  | 0, _ => none
  | fuel + 1, s =>
    match it.next s with
    | none => some []
    | some (item, s') => (collectF it fuel s').map (item :: ·)

/-- The driving loop of `invariants::double_ended_iterator_next_back`: at step
`i`, take from the front when `choices i` is true, else from the back, pushing
the item onto `from_start` resp. `from_end`; stop at the first `None` from
either end. -/
def driveF (it : DEIterOps σ α) (choices : Nat → Bool) :
    Nat → Nat → σ → List α → List α → Option (List α × List α)
  | 0, _, _, _, _ => none
  | fuel + 1, i, s, from_start, from_end =>
    if choices i then
      match it.next s with
      | some (item, s') => driveF it choices fuel (i + 1) s' (from_start ++ [item]) from_end
      | none => some (from_start, from_end)
    else
      match it.next_back s with
      | some (item, s') => driveF it choices fuel (i + 1) s' from_start (from_end ++ [item])
      | none => some (from_start, from_end)

/-- Equality of two `Vec<Item>` values as `std` defines it: elementwise under
the item type's `eq`. -/
def listEqBy (itemEq : α → α → Bool) : List α → List α → Bool
  | [], [] => true
  | x :: xs, y :: ys => itemEq x y && listEqBy itemEq xs ys
  | _, _ => false

namespace Invariants

/-- `invariants::double_ended_iterator_next_back`: the front-taken items
followed by the back-taken items in reverse must equal the forward
materialization of an independent clone. -/
def double_ended_iterator_next_back (it : DEIterOps σ α) (choices : Nat → Bool)
    (fuel : Nat) (s : σ) : Option (Except IteratorError Unit) :=
  match collectF it fuel s, driveF it choices fuel 0 s [] [] with
  | some collected, some (from_start, from_end) =>
    let assembled := from_start ++ from_end.reverse
    some (if !listEqBy it.item_eq assembled collected then .error .BadNextBack else .ok ())
  | _, _ => none

end Invariants

/-! ## Fused iterator model

After exhaustion a fused iterator keeps being polled, so `next` here always
returns a successor state even when it yields nothing. -/
structure FusedIterOps (σ α : Type) where
  next : σ → Option α × σ

/-- The first loop of `invariants::fused_iterator_none_forever`: drive the
iterator to its first `None`, counting the items yielded; returns the count
and the state after the first `None`, or `none` if the fuel runs out. -/
def exhaustF (it : FusedIterOps σ α) : Nat → Nat → σ → Option (Nat × σ)
  | 0, _, _ => none
  | fuel + 1, count, s =>
    match it.next s with
    | (some _, s') => exhaustF it fuel (count + 1) s'
    | (none, s') => some (count, s')

/-- The outputs of `n` successive `next` calls starting from `s`. -/
def pollOutputs (it : FusedIterOps σ α) : Nat → σ → List (Option α)
  | 0, _ => []
  | n + 1, s => (it.next s).1 :: pollOutputs it n (it.next s).2

/-- The second loop of `invariants::fused_iterator_none_forever`: poll `n`
more times; any `Some` is a violation. -/
def pollLoop (it : FusedIterOps σ α) : Nat → σ → Except IteratorError Unit
  | 0, _ => .ok ()
  | n + 1, s =>
    match it.next s with
    | (some _, _) => .error .FusedIteratorReturnedSomeAfterExhaustion
    | (none, s') => pollLoop it n s'

namespace Invariants

/-- `invariants::fused_iterator_none_forever`: exhaust the iterator counting
`count` items, then poll `count + 1` further times, all of which must yield
`None`. -/
def fused_iterator_none_forever (it : FusedIterOps σ α) (fuel : Nat) (s : σ) :
    Option (Except IteratorError Unit) :=
  match exhaustF it fuel 0 s with
  | none => none
  | some (count, s') => some (pollLoop it (count + 1) s')

end Invariants

/-! ## Concrete instances used by the tests and the claims -/

/-- The `ArweaveTrigger` enum of `tests/arweave_ord.rs`. -/
inductive ArweaveTrigger
  | Block (n : Nat)
  | Transaction (n : Nat)
  deriving DecidableEq, Repr

/-- The hand-written `PartialEq::eq` of `ArweaveTrigger`: compares payloads
within a variant, distinct variants are never equal. -/
def arweaveEq : ArweaveTrigger → ArweaveTrigger → Bool
  | .Block a_ptr, .Block b_ptr => a_ptr == b_ptr
  | .Transaction a_tx, .Transaction b_tx => a_tx == b_tx
  | _, _ => false

/-- The hand-written (broken) `Ord::cmp` of `ArweaveTrigger`: any two `Block`s
compare `Equal`, `Block` is greater than anything else, and any two
`Transaction`s compare `Equal`. -/
def arweaveCmp : ArweaveTrigger → ArweaveTrigger → Ordering
  | .Block _, .Block _ => .eq
  | .Block _, _ => .gt
  | _, .Block _ => .lt
  | .Transaction _, .Transaction _ => .eq

/-- The full method table of `ArweaveTrigger`: `partial_cmp` is the
hand-written `Some(self.cmp(other))`, every other method is the `std` default
derived from `eq`, `partial_cmp` and `cmp`. -/
def arweaveOps : OrdOps ArweaveTrigger where
  eq := arweaveEq
  ne := fun a b => !arweaveEq a b
  lt := fun a b => decide (some (arweaveCmp a b) = some Ordering.lt)
  le := fun a b => decide (some (arweaveCmp a b) = some Ordering.lt)
      || decide (some (arweaveCmp a b) = some Ordering.eq)
  gt := fun a b => decide (some (arweaveCmp a b) = some Ordering.gt)
  ge := fun a b => decide (some (arweaveCmp a b) = some Ordering.gt)
      || decide (some (arweaveCmp a b) = some Ordering.eq)
  partial_cmp := fun a b => some (arweaveCmp a b)
  cmp := arweaveCmp
  max := fun a b => max_by a b arweaveCmp
  min := fun a b => min_by a b arweaveCmp
  clamp := fun a mn mx =>
    if arweaveCmp a mn = .lt then mn else if arweaveCmp a mx = .gt then mx else a

/-- A conformant list-backed double-ended iterator (like `Vec`'s or
`BTreeSet`'s): `next` pops the head, `next_back` pops the last element, both
from one shared list of remaining items. -/
def listDEIter : DEIterOps (List Nat) Nat where
  next
    | [] => none
    | x :: xs => some (x, xs)
  next_back
    | [] => none
    | x :: xs => some ((x :: xs).getLast (by simp), (x :: xs).dropLast)
  item_eq := fun a b => a == b

/-- A broken double-ended iterator: `next_back` wrongly also pops from the
front of the remaining list. -/
def badDEIter : DEIterOps (List Nat) Nat where
  next
    | [] => none
    | x :: xs => some (x, xs)
  next_back
    | [] => none
    | x :: xs => some (x, xs)
  item_eq := fun a b => a == b

/-- A genuinely fused list-backed iterator: pops the head, and keeps yielding
nothing once the list is empty. -/
def fusedListIter : FusedIterOps (List Nat) Nat where
  next
    | [] => (none, [])
    | x :: xs => (some x, xs)

/-- A NaN-like `PartialEq` implementation (the behaviour of `f64::NAN`): `eq`
is never true, `ne` is its negation. -/
def nanEqOps : PartialEqOps Unit Unit where
  eq := fun _ _ => false
  ne := fun _ _ => true

/-- A cross-type `PartialOrd` pair with a one-sided duality mismatch:
`a < b` holds but `b > a` does not, while `a > b` and `b < a` agree. -/
def cexDualityAB : PartialOrdOps Unit Unit where
  eq := fun _ _ => false
  ne := fun _ _ => true
  lt := fun _ _ => true
  le := fun _ _ => true
  gt := fun _ _ => false
  ge := fun _ _ => false
  partial_cmp := fun _ _ => some .lt

/-- The reverse direction of the pair [`cexDualityAB`]: all comparisons
undefined / false. -/
def cexDualityBA : PartialOrdOps Unit Unit where
  eq := fun _ _ => false
  ne := fun _ _ => true
  lt := fun _ _ => false
  le := fun _ _ => false
  gt := fun _ _ => false
  ge := fun _ _ => false
  partial_cmp := fun _ _ => none

/-- A `PartialOrd` implementation whose `ne` is inconsistent with `eq` but
whose comparison operators agree with `partial_cmp`. -/
def cexBadNePO : PartialOrdOps Unit Unit where
  eq := fun _ _ => false
  ne := fun _ _ => false
  lt := fun _ _ => false
  le := fun _ _ => false
  gt := fun _ _ => false
  ge := fun _ _ => false
  partial_cmp := fun _ _ => none

/-- A `PartialOrd` implementation that breaks equality transitivity
(`a == b`, `b == c`, `a != c`) but has no `<`/`>` edges at all. -/
def cexEqTransPO : PartialOrdOps Unit Unit where
  eq := fun _ _ => true
  ne := fun _ _ => true
  lt := fun _ _ => false
  le := fun _ _ => true
  gt := fun _ _ => false
  ge := fun _ _ => true
  partial_cmp := fun _ _ => some .eq

/-- An `Ord` implementation whose `lt` is broken so that the clamped value
tests below the lower bound, while `cmp`, `partial_cmp`, `max` and `min` are
mutually consistent. -/
def cexClampOrd : OrdOps Unit where
  eq := fun _ _ => true
  ne := fun _ _ => false
  lt := fun _ _ => true
  le := fun _ _ => true
  gt := fun _ _ => false
  ge := fun _ _ => true
  partial_cmp := fun _ _ => some .eq
  cmp := fun _ _ => .eq
  max := fun _ _ => ()
  min := fun _ _ => ()
  clamp := fun _ _ _ => ()

/-- A correct (trivial) `Ord` implementation on the one-value type. -/
def uOrdOps : OrdOps Unit where
  eq := fun _ _ => true
  ne := fun _ _ => false
  lt := fun _ _ => false
  le := fun _ _ => true
  gt := fun _ _ => false
  ge := fun _ _ => true
  partial_cmp := fun _ _ => some .eq
  cmp := fun _ _ => .eq
  max := fun _ _ => ()
  min := fun _ _ => ()
  clamp := fun _ _ _ => ()

/-- A well-behaved one-element iterator over `[7]` with truthful method
results. -/
def natIter : IterOps Nat where
  seq := [7]
  size_hint := (1, none)
  count := 1
  last := some 7
  item_eq := fun a b => a == b

/-- A well-behaved `Hash + Eq` implementation on `Nat`: a value hashes to the
single write of its own byte. -/
def natHashOps : HashOps Nat where
  eq := fun a b => a == b
  ne := fun a b => !(a == b)
  hash_writes := fun n => [[n]]

/-! ## Claims -/

/-- Claim C1: for a value `a` with `a != a` (a floating-point NaN), the
composite strict-equality checker `eq` of `lib.rs` fails with
`Error::BrokeReflexivity` and `partial_eq` applied to `a, a, a` succeeds, as
the claim states; but the standalone `invariants.rs` checker `eq_reflexivity`
returns `PartialEqError::BrokeTransitivity` — a transitivity kind — instead of
a reflexivity violation, contradicting its own documentation and leaving
`EqError::BrokeReflexivity` unused. -/
theorem c1_nan_reflexivity :
    RelLib.eq nanEqOps () () () = .error .BrokeReflexivity ∧
    RelLib.partial_eq nanEqOps () () () = .ok () ∧
    Invariants.eq_reflexivity nanEqOps () = .error .BrokeTransitivity :=
  ⟨rfl, rfl, rfl⟩

/-- Claim C2 counterexample: a one-sided duality mismatch (`a < b` true but
`b > a` false, with `a > b` and `b < a` both false) is *not* reported:
`partial_ord_duality` returns `Ok`, refuting the claim that a mismatch in
either single direction yields a violation. -/
theorem c2_counterexample :
    Invariants.partial_ord_duality cexDualityAB cexDualityBA () () = .ok () ∧
    cexDualityAB.lt () () ≠ cexDualityBA.gt () () := by
  refine ⟨?_, by decide⟩
  rfl

/-- Claim C2 (amended): `partial_ord_duality` returns a duality violation iff
*both* directions mismatch simultaneously (`a < b` differs from `b > a` and
`a > b` differs from `b < a`); it succeeds as soon as at least one direction
is consistent. -/
theorem c2_duality_amended (opsAB : PartialOrdOps α β) (opsBA : PartialOrdOps β α)
    (a : α) (b : β) :
    Invariants.partial_ord_duality opsAB opsBA a b = .ok () ↔
      (opsAB.lt a b = opsBA.gt b a ∨ opsAB.gt a b = opsBA.lt b a) := by
  unfold Invariants.partial_ord_duality
  split <;> rename_i h
  · constructor
    · intro hcontra
      exact absurd hcontra (by simp)
    · intro hor
      rcases hor with h1 | h2
      · exact absurd h1 h.1
      · exact absurd h2 h.2
  · rw [not_and_or] at h
    simp only [ne_eq, not_not] at h
    simp [h]

/-- Claim C2 amended-theorem witness: for the pair of all-false cross-type
orderings both directions are consistent and the checker succeeds. -/
theorem c2_duality_amended_witness :
    Invariants.partial_ord_duality cexDualityBA cexDualityBA () () = .ok () :=
  (c2_duality_amended cexDualityBA cexDualityBA () ()).mpr (Or.inl rfl)

/-- Claim C3: on the broken `ArweaveTrigger` ordering, the total-order checker
`ord` applied to `a = Transaction 1`, `b = Transaction 2`, `c = Block 0`
reports the `partial_cmp`/`eq` consistency violation, because
`cmp a b = Equal` while `a == b` is false. -/
theorem c3_arweave_ord_fails :
    RelLib.ord arweaveOps (.Transaction 1) (.Transaction 2) (.Block 0) =
      .error .NotConsistentPartialCmpEq ∧
    arweaveCmp (.Transaction 1) (.Transaction 2) = .eq ∧
    arweaveEq (.Transaction 1) (.Transaction 2) = false :=
  ⟨rfl, rfl, rfl⟩

/-- Unfolding bridge between `decide` and a boolean method result, used to
characterize checks that compare a decided proposition with a method's `Bool`
output. -/
theorem decideEqBoolIff (p : Prop) [Decidable p] (b : Bool) :
    decide p = b ↔ (p ↔ b = true) := by
  cases b <;> simp

/-- Claim C4: `ord_methods_consistency` succeeds iff `partial_cmp` agrees with
`cmp` on `(a, b)`, `max`/`min` agree with `max_by`/`min_by` under `cmp` (which
resolve ties toward the second resp. first argument), and the clamped value
`clamp a (min b c) (max b c)` is neither below the lower nor above the upper
bound under the implementation's own ordering operators. -/
theorem c4_ord_methods_consistency_iff (ops : OrdOps α) (a b c : α) :
    (Invariants.ord_methods_consistency ops a b c = .ok () ↔
      (ops.partial_cmp a b = some (ops.cmp a b) ∧
       ops.ne (ops.max a b) (max_by a b ops.cmp) = false ∧
       ops.ne (ops.min a b) (min_by a b ops.cmp) = false ∧
       ops.lt (ops.clamp a (ops.min b c) (ops.max b c)) (ops.min b c) = false ∧
       ops.gt (ops.clamp a (ops.min b c) (ops.max b c)) (ops.max b c) = false)) ∧
    (∀ x y : α, ops.cmp x y = .eq → max_by x y ops.cmp = y ∧ min_by x y ops.cmp = x) := by
  constructor
  · by_cases h1 : ops.partial_cmp a b = some (ops.cmp a b)
    · by_cases h2 : ops.ne (ops.max a b) (max_by a b ops.cmp)
      · simp [Invariants.ord_methods_consistency, h1, h2]
      · by_cases h3 : ops.ne (ops.min a b) (min_by a b ops.cmp)
        · simp [Invariants.ord_methods_consistency, h1, h2, h3]
        · by_cases h4 : ops.lt (ops.clamp a (ops.min b c) (ops.max b c)) (ops.min b c)
          · simp [Invariants.ord_methods_consistency, h1, h2, h3, h4]
          · by_cases h5 : ops.gt (ops.clamp a (ops.min b c) (ops.max b c)) (ops.max b c)
            · simp [Invariants.ord_methods_consistency, h1, h2, h3, h4, h5]
            · simp [Invariants.ord_methods_consistency, h1, h2, h3, h4, h5]
    · simp [Invariants.ord_methods_consistency, h1]
  · intro x y h
    constructor
    · unfold max_by
      rw [h]
    · unfold min_by
      rw [h]

/-- Claim C4 witness: the trivial correct `Ord` implementation satisfies all
four conditions, so the checker succeeds on it. -/
theorem c4_ord_methods_consistency_iff_witness :
    Invariants.ord_methods_consistency uOrdOps () () () = .ok () :=
  (c4_ord_methods_consistency_iff uOrdOps () () ()).1.mpr ⟨rfl, rfl, rfl, rfl, rfl⟩

/-- Claim C5: the three simple iterator checkers characterized:
`iterator_size_hint` succeeds iff the lower bound is at most `count` and
`count` is at most any stated upper bound; `iterator_count` succeeds iff
`count` equals the length of the collected sequence; `iterator_last` succeeds
iff `last()` equals the last element of the collected sequence (both possibly
absent), under the item type's equality. -/
theorem c5_iterator_checkers_iff (iter : IterOps α) :
    (Invariants.iterator_size_hint iter = .ok () ↔
      (iter.size_hint.1 ≤ iter.count ∧
        ∀ u, iter.size_hint.2 = some u → iter.count ≤ u)) ∧
    (Invariants.iterator_count iter = .ok () ↔ iter.count = iter.seq.length) ∧
    (Invariants.iterator_last iter = .ok () ↔
      optionEqBy iter.item_eq iter.last iter.seq.getLast? = true) := by
  refine ⟨?_, ?_, ?_⟩
  · rcases hu : iter.size_hint.2 with _ | u
    · by_cases h1 : iter.size_hint.1 > iter.count
      · simp only [Invariants.iterator_size_hint, hu, if_pos h1]
        constructor
        · intro hcontra
          exact absurd hcontra (by simp)
        · intro ⟨hle, _⟩
          omega
      · have hval : Invariants.iterator_size_hint iter = .ok () := by
          simp [Invariants.iterator_size_hint, hu, if_neg h1]
        rw [hval]
        constructor
        · intro _
          refine ⟨by omega, ?_⟩
          intro v hv
          cases hv
        · intro _
          rfl
    · by_cases h1 : iter.size_hint.1 > iter.count
      · simp only [Invariants.iterator_size_hint, hu, if_pos h1]
        constructor
        · intro hcontra
          exact absurd hcontra (by simp)
        · intro ⟨hle, _⟩
          omega
      · by_cases h2 : u < iter.count
        · simp only [Invariants.iterator_size_hint, hu, if_neg h1, if_pos h2]
          constructor
          · intro hcontra
            exact absurd hcontra (by simp)
          · intro ⟨_, hub⟩
            have := hub u rfl
            omega
        · have hval : Invariants.iterator_size_hint iter = .ok () := by
            simp [Invariants.iterator_size_hint, hu, if_neg h1, if_neg h2]
          rw [hval]
          constructor
          · intro _
            refine ⟨by omega, ?_⟩
            intro v hv
            injection hv with hv
            omega
          · intro _
            rfl
  · by_cases h : iter.count = iter.seq.length
    · simp [Invariants.iterator_count, h]
    · simp [Invariants.iterator_count, h]
  · by_cases h : optionEqBy iter.item_eq iter.last iter.seq.getLast? = true
    · simp [Invariants.iterator_last, h]
    · rw [Bool.not_eq_true] at h
      simp [Invariants.iterator_last, h]

/-- Claim C5 witness: the well-behaved one-element iterator satisfies all
three characterizations, so the three checkers succeed on it. -/
theorem c5_iterator_checkers_iff_witness :
    Invariants.iterator_size_hint natIter = .ok () ∧
    Invariants.iterator_count natIter = .ok () ∧
    Invariants.iterator_last natIter = .ok () :=
  ⟨(c5_iterator_checkers_iff natIter).1.mpr
      ⟨Nat.le_refl 1, fun u hu => nomatch hu⟩,
    (c5_iterator_checkers_iff natIter).2.1.mpr rfl,
    (c5_iterator_checkers_iff natIter).2.2.mpr rfl⟩

/-- Claim C7: with the byte-recording identity sink, `hash_consistency_with_eq`
succeeds iff equality of the recorded byte sequences coincides with `eq`, and
`hash_prefix_collision` reports a collision iff `a != b` and one recorded
sequence is a prefix of the other; values with `a != b` false always pass the
prefix check. -/
theorem c7_hash_checkers_iff (ops : HashOps α) (a b : α) :
    (Invariants.hash_consistency_with_eq ops a b = .ok () ↔
      ((hasher_output ops a = hasher_output ops b) ↔ ops.eq a b = true)) ∧
    (Invariants.hash_prefix_collision ops a b = .error .PrefixCollision ↔
      (ops.ne a b = true ∧
        (hasher_output ops a <+: hasher_output ops b ∨
          hasher_output ops b <+: hasher_output ops a))) ∧
    (ops.ne a b = false → Invariants.hash_prefix_collision ops a b = .ok ()) := by
  refine ⟨?_, ?_, ?_⟩
  · by_cases h : decide (hasher_output ops a = hasher_output ops b) = ops.eq a b
    · have hval : Invariants.hash_consistency_with_eq ops a b = .ok () := by
        simp only [Invariants.hash_consistency_with_eq, ne_eq, h, not_true_eq_false,
          if_false]
      rw [hval]
      exact ⟨fun _ => (decideEqBoolIff _ _).mp h, fun _ => rfl⟩
    · simp only [Invariants.hash_consistency_with_eq, ne_eq, h, not_false_eq_true,
        if_true]
      constructor
      · intro hcontra
        exact absurd hcontra (by simp)
      · intro hiff
        exact absurd ((decideEqBoolIff _ _).mpr hiff) h
  · by_cases h : ops.ne a b
    · by_cases h2 : (hasher_output ops b).isPrefixOf (hasher_output ops a)
          || (hasher_output ops a).isPrefixOf (hasher_output ops b)
      · rw [Bool.or_eq_true, List.isPrefixOf_iff_prefix, List.isPrefixOf_iff_prefix] at h2
        have hval : Invariants.hash_prefix_collision ops a b = .error .PrefixCollision := by
          simp only [Invariants.hash_prefix_collision, h, if_true]
          rw [if_pos (by
            rw [Bool.or_eq_true, List.isPrefixOf_iff_prefix, List.isPrefixOf_iff_prefix]
            exact h2)]
        rw [hval]
        exact ⟨fun _ => ⟨h, Or.symm h2⟩, fun _ => rfl⟩
      · rw [Bool.or_eq_true, not_or, List.isPrefixOf_iff_prefix,
          List.isPrefixOf_iff_prefix] at h2
        simp only [Invariants.hash_prefix_collision, h, if_true]
        rw [if_neg (by
          rw [Bool.or_eq_true, List.isPrefixOf_iff_prefix, List.isPrefixOf_iff_prefix]
          exact (not_or.mpr h2 : _))]
        constructor
        · intro hcontra
          exact absurd hcontra (by simp)
        · intro ⟨_, hor⟩
          rcases hor with h1 | h1
          · exact absurd h1 h2.2
          · exact absurd h1 h2.1
    · rw [Bool.not_eq_true] at h
      simp [Invariants.hash_prefix_collision, h]
  · intro h
    simp [Invariants.hash_prefix_collision, h]

/-- Claim C7 witness: for the well-behaved `Nat` hashing at the pair `(1, 1)`
both hash checkers succeed: the recorded outputs agree with equality, and
equal values pass the prefix check. -/
theorem c7_hash_checkers_iff_witness :
    Invariants.hash_consistency_with_eq natHashOps 1 1 = .ok () ∧
    Invariants.hash_prefix_collision natHashOps 1 1 = .ok () :=
  ⟨(c7_hash_checkers_iff natHashOps 1 1).1.mpr
      ⟨fun _ => rfl, fun _ => rfl⟩,
    (c7_hash_checkers_iff natHashOps 1 1).2.2 rfl⟩

/-- Claim C6: whenever the forward materialization and the driven loop both
finish within the fuel, `double_ended_iterator_next_back` succeeds iff the
front-taken items followed by the reversed back-taken items equal the forward
materialization, element-wise under the item type's equality — for every
iterator machine and every choice sequence. -/
theorem c6_double_ended_iff (it : DEIterOps σ α) (choices : Nat → Bool)
    (fuel : Nat) (s : σ) (collected from_start from_end : List α)
    (hc : collectF it fuel s = some collected)
    (hd : driveF it choices fuel 0 s [] [] = some (from_start, from_end)) :
    Invariants.double_ended_iterator_next_back it choices fuel s = some (.ok ()) ↔
      listEqBy it.item_eq (from_start ++ from_end.reverse) collected = true := by
  unfold Invariants.double_ended_iterator_next_back
  rw [hc, hd]
  by_cases h : listEqBy it.item_eq (from_start ++ from_end.reverse) collected = true
  · simp [h]
  · rw [Bool.not_eq_true] at h
    simp [h]

/-- Claim C6 witness: driving the list-backed iterator over `[1, 2]` entirely
from the front (all choices `true`, fuel 3) succeeds. -/
theorem c6_double_ended_iff_witness :
    Invariants.double_ended_iterator_next_back listDEIter (fun _ => true) 3 [1, 2] =
      some (.ok ()) :=
  (c6_double_ended_iff listDEIter (fun _ => true) 3 [1, 2] [1, 2] [1, 2] [] rfl rfl).mpr rfl

/-- The second loop of the fused checker succeeds exactly when all `n`
successive poll outputs are `None`, and fails with the fused-iterator
violation kind otherwise. -/
theorem pollLoop_eq_ite (it : FusedIterOps σ α) :
    ∀ (n : Nat) (s : σ),
      pollLoop it n s =
        if (pollOutputs it n s).all Option.isNone then .ok ()
        else .error .FusedIteratorReturnedSomeAfterExhaustion := by
  intro n
  induction n with
  | zero => intro s; rfl
  | succ n ih =>
    intro s
    rcases hn : it.next s with ⟨o, t⟩
    rcases o with _ | x
    · simp only [pollLoop, pollOutputs, hn, Option.isNone_none, Bool.true_and,
        List.all_cons]
      exact ih t
    · simp only [pollLoop, pollOutputs, hn, Option.isNone_some, Bool.false_and,
        List.all_cons]
      simp

/-- Claim C8: if exhausting the iterator finishes within the fuel, having
yielded `count` items before its first `None` and reaching state `s'`, then
`fused_iterator_none_forever` returns `Ok` iff all `count + 1` further polls
yield `None`, and the fused-iterator violation kind otherwise. -/
theorem c8_fused_iff (it : FusedIterOps σ α) (fuel : Nat) (s : σ)
    (count : Nat) (s' : σ) (h : exhaustF it fuel 0 s = some (count, s')) :
    Invariants.fused_iterator_none_forever it fuel s =
      some (if (pollOutputs it (count + 1) s').all Option.isNone then .ok ()
            else .error .FusedIteratorReturnedSomeAfterExhaustion) := by
  unfold Invariants.fused_iterator_none_forever
  rw [h]
  show some (pollLoop it (count + 1) s') = _
  rw [pollLoop_eq_ite]

/-- Claim C8 witness: the fused list-backed iterator over `[5, 6]` yields two
items, and the three polls after its first `None` all yield `None`, so the
checker succeeds. -/
theorem c8_fused_iff_witness :
    Invariants.fused_iterator_none_forever fusedListIter 3 [5, 6] = some (.ok ()) :=
  (c8_fused_iff fusedListIter 3 [5, 6] 2 [] rfl).trans rfl

/-- Forward materialization of the conformant list-backed double-ended
iterator recovers the backing list (one step of fuel per element plus one for
the final `None`). -/
theorem collectF_listDEIter : ∀ l : List Nat, collectF listDEIter (l.length + 1) l = some l := by
  intro l
  induction l with
  | nil => rfl
  | cons x xs ih =>
    show collectF listDEIter (xs.length + 1 + 1) (x :: xs) = some (x :: xs)
    rw [collectF]
    show (collectF listDEIter (xs.length + 1) xs).map (x :: ·) = some (x :: xs)
    rw [ih]
    rfl

/-- `listEqBy` under `Nat` equality is reflexive. -/
theorem listEqBy_beq_refl : ∀ l : List Nat, listEqBy (fun a b => a == b) l l = true := by
  intro l
  induction l with
  | nil => rfl
  | cons x xs ih => simp [listEqBy, ih]

/-- Driving the conformant list-backed iterator with any choice sequence
terminates within fuel exceeding the remaining length, and the front-taken
items followed by the reversed back-taken items extend the accumulators by
exactly the remaining list. -/
theorem driveF_listDEIter (choices : Nat → Bool) :
    ∀ (fuel : Nat) (l : List Nat) (i : Nat) (fs fe : List Nat), l.length < fuel →
      ∃ fs' fe', driveF listDEIter choices fuel i l fs fe = some (fs', fe') ∧
        fs' ++ fe'.reverse = fs ++ (l ++ fe.reverse) := by
  intro fuel
  induction fuel with
  | zero =>
    intro l i fs fe h
    exact absurd h (by omega)
  | succ fuel ih =>
    intro l i fs fe h
    rw [driveF]
    by_cases hc : choices i
    · rw [if_pos hc]
      cases l with
      | nil => exact ⟨fs, fe, rfl, by simp⟩
      | cons x xs =>
        obtain ⟨fs', fe', hdrive, heq⟩ :=
          ih xs (i + 1) (fs ++ [x]) fe (by simp at h; omega)
        refine ⟨fs', fe', hdrive, ?_⟩
        rw [heq]
        simp
    · rw [if_neg hc]
      cases l with
      | nil => exact ⟨fs, fe, rfl, by simp⟩
      | cons x xs =>
        obtain ⟨fs', fe', hdrive, heq⟩ :=
          ih (x :: xs).dropLast (i + 1) fs (fe ++ [(x :: xs).getLast (by simp)])
            (by simp [List.length_dropLast] at h ⊢; omega)
        refine ⟨fs', fe', hdrive, ?_⟩
        rw [heq]
        congr 1
        rw [List.reverse_append, List.reverse_singleton, ← List.append_assoc,
          List.dropLast_append_getLast]

/-- Claim C9 counterexample: on a non-conformant double-ended iterator (whose
`next_back` also pops from the front) over `[1, 2]`, the all-front choice
sequence makes the check succeed while the all-back choice sequence makes it
fail: the outcome is not invariant across choice sequences on the same
iterator. -/
theorem c9_counterexample :
    Invariants.double_ended_iterator_next_back badDEIter (fun _ => true) 3 [1, 2] =
      some (.ok ()) ∧
    Invariants.double_ended_iterator_next_back badDEIter (fun _ => false) 3 [1, 2] =
      some (.error .BadNextBack) :=
  ⟨rfl, rfl⟩

/-- Claim C9 (amended): every checker is a pure function of its explicit
inputs, so re-invocation on the same inputs yields the same result; the
double-ended check's outcome is additionally invariant across all choice
sequences — with success for every choice sequence — when the iterator under
test is a conformant list-backed double-ended iterator, while for a
non-conformant iterator the outcome may depend on the choice sequence. -/
theorem c9_idempotence_amended :
    (∀ (α : Type) (ops : OrdOps α) (a b c : α),
      RelLib.ord ops a b c = RelLib.ord ops a b c) ∧
    (∀ (α : Type) (ops : HashOps α) (a b : α),
      Invariants.hash_consistency_with_eq ops a b =
        Invariants.hash_consistency_with_eq ops a b) ∧
    (∀ (l : List Nat) (choices : Nat → Bool),
      Invariants.double_ended_iterator_next_back listDEIter choices (l.length + 1) l =
        some (.ok ())) := by
  refine ⟨fun _ _ _ _ _ => rfl, fun _ _ _ _ => rfl, ?_⟩
  intro l choices
  unfold Invariants.double_ended_iterator_next_back
  rw [collectF_listDEIter]
  obtain ⟨fs', fe', hdrive, heq⟩ :=
    driveF_listDEIter choices (l.length + 1) l 0 [] [] (by omega)
  rw [hdrive]
  simp only [List.append_nil, List.reverse_nil, List.nil_append] at heq
  show some (if (!listEqBy (fun a b : Nat => a == b) (fs' ++ fe'.reverse) l) = true
      then Except.error IteratorError.BadNextBack else Except.ok ()) =
    some (Except.ok ())
  rw [heq, listEqBy_beq_refl]
  rfl

/-- Claim C9 amended-theorem witness: the conformant list-backed iterator over
`[1]` passes the double-ended check under an all-back choice sequence. -/
theorem c9_idempotence_amended_witness :
    Invariants.double_ended_iterator_next_back listDEIter (fun _ => false) 2 [1] =
      some (.ok ()) :=
  c9_idempotence_amended.2.2 [1] (fun _ => false)

/-- Sequencing in the `Except` monad after a successful check. -/
theorem exceptBindOk {ε : Type} (x : Except ε Unit) (f : Unit → Except ε Unit)
    (h : x = .ok ()) : (x >>= f) = f () := by
  rw [h]
  rfl

/-- Sequencing in the `Except` monad after a failed check short-circuits. -/
theorem exceptBindError {ε : Type} (x : Except ε Unit) (f : Unit → Except ε Unit)
    (e : ε) (h : x = .error e) : (x >>= f) = .error e := by
  rw [h]
  rfl

/-- Two error-reporting chains with the same five guard conditions succeed on
exactly the same inputs, whatever their error payloads. -/
theorem isOkIteChain5 {ε₁ ε₂ : Type} (c1 c2 c3 c4 c5 : Prop)
    [Decidable c1] [Decidable c2] [Decidable c3] [Decidable c4] [Decidable c5]
    (e1 e2 e3 e4 e5 : ε₁) (f1 f2 f3 f4 f5 : ε₂) :
    (if c1 then (Except.error e1 : Except ε₁ Unit) else if c2 then .error e2
      else if c3 then .error e3 else if c4 then .error e4 else if c5 then .error e5
      else .ok ()).isOk =
    (if c1 then (Except.error f1 : Except ε₂ Unit) else if c2 then .error f2
      else if c3 then .error f3 else if c4 then .error f4 else if c5 then .error f5
      else .ok ()).isOk := by
  by_cases h1 : c1 <;> by_cases h2 : c2 <;> by_cases h3 : c3 <;> by_cases h4 : c4 <;>
    by_cases h5 : c5 <;> simp [h1, h2, h3, h4, h5, Except.isOk, Except.toBool]

/-- Two error-reporting chains with the same two guard conditions succeed on
exactly the same inputs, whatever their error payloads. -/
theorem isOkIteChain2 {ε₁ ε₂ : Type} (c1 c2 : Prop) [Decidable c1] [Decidable c2]
    (e1 e2 : ε₁) (f1 f2 : ε₂) :
    (if c1 then (Except.error e1 : Except ε₁ Unit) else if c2 then .error e2
      else .ok ()).isOk =
    (if c1 then (Except.error f1 : Except ε₂ Unit) else if c2 then .error f2
      else .ok ()).isOk := by
  by_cases h1 : c1 <;> by_cases h2 : c2 <;> simp [h1, h2, Except.isOk, Except.toBool]

/-- Claim C10 counterexample: the two embeddings do not succeed on the same
inputs for three of the checkers. With `eq`/`ne` both constantly false, the
standalone `partial_ord_methods_consistency` succeeds while the `lib.rs` one
fails; with `eq`/`ne` both constantly true and no `<`/`>` edges, the
standalone `partial_ord_transitivity` succeeds while the `lib.rs` one fails;
with a broken `lt` that makes the clamped value test below the lower bound,
the `lib.rs` `ord_methods_consistency` succeeds while the standalone one
fails. -/
theorem c10_counterexample :
    ((Invariants.partial_ord_methods_consistency cexBadNePO () ()).isOk = true ∧
      (RelLib.partial_ord_methods_consistency cexBadNePO () ()).isOk = false) ∧
    ((Invariants.partial_ord_transitivity cexEqTransPO cexEqTransPO cexEqTransPO
        () () ()).isOk = true ∧
      (RelLib.partial_ord_transitivity cexEqTransPO cexEqTransPO cexEqTransPO
        () () ()).isOk = false) ∧
    ((RelLib.ord_methods_consistency cexClampOrd () () ()).isOk = true ∧
      (Invariants.ord_methods_consistency cexClampOrd () () ()).isOk = false) :=
  ⟨⟨rfl, rfl⟩, ⟨rfl, rfl⟩, rfl, rfl⟩

/-- Claim C10 (amended): the two embeddings of `partial_eq_methods_consistency`,
`partial_eq_symmetry`, `partial_eq_transitivity`, `eq_reflexivity` and
`partial_ord_duality` return `Ok` on exactly the same inputs. The `lib.rs`
`partial_ord_methods_consistency` and `partial_ord_transitivity` additionally
require the corresponding partial-equality law first (`eq`/`ne` consistency,
resp. equality transitivity), and the `lib.rs` `ord_methods_consistency`
omits the standalone version's clamp check. -/
theorem c10_two_embeddings_amended (α β γ : Type)
    (peAB : PartialEqOps α β) (peBA : PartialEqOps β α) (peBC : PartialEqOps β γ)
    (peAC : PartialEqOps α γ) (peAA : PartialEqOps α α)
    (poAB : PartialOrdOps α β) (poBA : PartialOrdOps β α) (poBC : PartialOrdOps β γ)
    (poAC : PartialOrdOps α γ) (oo : OrdOps α)
    (a : α) (b : β) (c : γ) (x y z : α) :
    ((RelLib.partial_eq_methods_consistency peAB a b).isOk =
      (Invariants.partial_eq_methods_consistency peAB a b).isOk) ∧
    ((RelLib.partial_eq_symmetry peAB peBA a b).isOk =
      (Invariants.partial_eq_symmetry peAB peBA a b).isOk) ∧
    ((RelLib.partial_eq_transitivity peAB peBC peAC a b c).isOk =
      (Invariants.partial_eq_transitivity peAB peBC peAC a b c).isOk) ∧
    ((RelLib.eq_reflexivity peAA x).isOk = (Invariants.eq_reflexivity peAA x).isOk) ∧
    ((RelLib.partial_ord_duality poAB poBA a b).isOk =
      (Invariants.partial_ord_duality poAB poBA a b).isOk) ∧
    ((RelLib.partial_ord_methods_consistency poAB a b).isOk = true ↔
      ((Invariants.partial_ord_methods_consistency poAB a b).isOk = true ∧
        poAB.eq a b = !poAB.ne a b)) ∧
    ((RelLib.partial_ord_transitivity poAB poBC poAC a b c).isOk = true ↔
      ((Invariants.partial_ord_transitivity poAB poBC poAC a b c).isOk = true ∧
        !(poAB.eq a b && poBC.eq b c && poAC.ne a c) = true)) ∧
    ((Invariants.ord_methods_consistency oo x y z).isOk = true ↔
      ((RelLib.ord_methods_consistency oo x y z).isOk = true ∧
        (oo.lt (oo.clamp x (oo.min y z) (oo.max y z)) (oo.min y z) ||
          oo.gt (oo.clamp x (oo.min y z) (oo.max y z)) (oo.max y z)) = false)) := by
  refine ⟨?_, ?_, ?_, ?_, ?_, ?_, ?_, ?_⟩
  · by_cases h : peAB.eq a b = !peAB.ne a b <;>
      simp [RelLib.partial_eq_methods_consistency,
        Invariants.partial_eq_methods_consistency, Except.isOk, Except.toBool, h]
  · by_cases h : peAB.eq a b = peBA.eq b a <;>
      simp [RelLib.partial_eq_symmetry, Invariants.partial_eq_symmetry, Except.isOk, Except.toBool, h]
  · by_cases h : (peAB.eq a b && peBC.eq b c && peAC.ne a c) = true
    · simp [RelLib.partial_eq_transitivity, Invariants.partial_eq_transitivity,
        Except.isOk, Except.toBool, h]
    · rw [Bool.not_eq_true] at h
      simp [RelLib.partial_eq_transitivity, Invariants.partial_eq_transitivity,
        Except.isOk, Except.toBool, h]
  · by_cases h : peAA.ne x x = true
    · simp [RelLib.eq_reflexivity, Invariants.eq_reflexivity, Except.isOk, Except.toBool, h]
    · rw [Bool.not_eq_true] at h
      simp [RelLib.eq_reflexivity, Invariants.eq_reflexivity, Except.isOk, Except.toBool, h]
  · by_cases h : (poAB.lt a b ≠ poBA.gt b a) ∧ (poAB.gt a b ≠ poBA.lt b a) <;>
      simp [RelLib.partial_ord_duality, Invariants.partial_ord_duality, Except.isOk, Except.toBool, h]
  · by_cases hpe : poAB.eq a b = !poAB.ne a b
    · have hiso : (RelLib.partial_ord_methods_consistency poAB a b).isOk =
          (Invariants.partial_ord_methods_consistency poAB a b).isOk := by
        unfold RelLib.partial_ord_methods_consistency
          Invariants.partial_ord_methods_consistency
        rw [exceptBindOk _ _
          (by simp [RelLib.partial_eq_methods_consistency, hpe])]
        exact isOkIteChain5 _ _ _ _ _ _ _ _ _ _ _ _ _ _ _
      rw [hiso]
      simp [hpe]
    · have hval : RelLib.partial_ord_methods_consistency poAB a b =
          .error .NotConsistentEqNe := by
        unfold RelLib.partial_ord_methods_consistency
        exact exceptBindError _ _ _
          (by simp [RelLib.partial_eq_methods_consistency, hpe])
      rw [hval]
      simp [Except.isOk, Except.toBool, hpe]
  · by_cases hpe : (poAB.eq a b && poBC.eq b c && poAC.ne a c) = true
    · have hval : RelLib.partial_ord_transitivity poAB poBC poAC a b c =
          .error .BrokeTransitivity := by
        unfold RelLib.partial_ord_transitivity
        exact exceptBindError _ _ _
          (by simp [RelLib.partial_eq_transitivity, hpe])
      rw [hval]
      simp [Except.isOk, Except.toBool, hpe]
    · rw [Bool.not_eq_true] at hpe
      have hiso : (RelLib.partial_ord_transitivity poAB poBC poAC a b c).isOk =
          (Invariants.partial_ord_transitivity poAB poBC poAC a b c).isOk := by
        unfold RelLib.partial_ord_transitivity Invariants.partial_ord_transitivity
        rw [exceptBindOk _ _
          (by simp [RelLib.partial_eq_transitivity, hpe])]
        exact isOkIteChain2 _ _ _ _ _ _
      rw [hiso]
      simp [hpe]
  · by_cases h1 : oo.partial_cmp x y = some (oo.cmp x y)
    · by_cases h2 : oo.ne (oo.max x y) (max_by x y oo.cmp) = true
      · simp [RelLib.ord_methods_consistency, Invariants.ord_methods_consistency,
          Except.isOk, Except.toBool, h1, h2]
      · rw [Bool.not_eq_true] at h2
        by_cases h3 : oo.ne (oo.min x y) (min_by x y oo.cmp) = true
        · simp [RelLib.ord_methods_consistency, Invariants.ord_methods_consistency,
            Except.isOk, Except.toBool, h1, h2, h3]
        · rw [Bool.not_eq_true] at h3
          by_cases h4 : (oo.lt (oo.clamp x (oo.min y z) (oo.max y z)) (oo.min y z) ||
              oo.gt (oo.clamp x (oo.min y z) (oo.max y z)) (oo.max y z)) = true
          · simp [RelLib.ord_methods_consistency, Invariants.ord_methods_consistency,
              Except.isOk, Except.toBool, h1, h2, h3, h4]
          · rw [Bool.not_eq_true] at h4
            simp [RelLib.ord_methods_consistency, Invariants.ord_methods_consistency,
              Except.isOk, Except.toBool, h1, h2, h3, h4]
    · simp [RelLib.ord_methods_consistency, Invariants.ord_methods_consistency,
        Except.isOk, Except.toBool, h1]

/-- Claim C10 amended-theorem witness: on a correct one-value `Ord`
implementation the `lib.rs` `partial_ord_methods_consistency` succeeds,
obtained from the standalone version's success plus `eq`/`ne` consistency. -/
theorem c10_two_embeddings_amended_witness :
    (RelLib.partial_ord_methods_consistency uOrdOps.toPartialOrdOps () ()).isOk = true :=
  ((c10_two_embeddings_amended Unit Unit Unit uOrdOps.toPartialEqOps
      uOrdOps.toPartialEqOps uOrdOps.toPartialEqOps uOrdOps.toPartialEqOps
      uOrdOps.toPartialEqOps uOrdOps.toPartialOrdOps uOrdOps.toPartialOrdOps
      uOrdOps.toPartialOrdOps uOrdOps.toPartialOrdOps uOrdOps
      () () () () () ()).2.2.2.2.2.1).mpr ⟨rfl, rfl⟩

end Reltester
